import Mathlib

/-!
Verification development for the `stonks` personal stock-ledger program
(`src/main.rs`).  The numeric type `f64` used for the running cost totals is
modelled by `Option ℚ`: `some x` is a finite value whose arithmetic is
idealized as exact rational arithmetic, and `none` stands for any non-finite
value (`NaN` or an infinity).  Every `f64` operation the program performs maps
non-finite operands to non-finite results and never divides by a non-finite
denominator (the denominators are `i64` casts), so the abstraction is faithful
for the code paths modelled here.  `i64` quantities are modelled by `ℤ`
(no claim concerns integer overflow), BSON timestamps by `ℤ`, and a Rust
panic (an `unwrap` failure) by `Except.error`.
-/

namespace Stonks

/-- Model of an `f64` running total: `some x` finite, `none` non-finite. -/
abbrev F := Option ℚ

/-- Addition of `f64` values; any non-finite operand yields a non-finite result. -/
def fAdd : F → F → F
  | some x, some y => some (x + y)
  | _, _ => none

/-- Subtraction of `f64` values; any non-finite operand yields a non-finite result. -/
def fSub : F → F → F
  | some x, some y => some (x - y)
  | _, _ => none

/-- Multiplication of `f64` values; any non-finite operand yields a non-finite result.
(`∞ * 0 = NaN`, so non-finite times anything is non-finite.) -/
def fMul : F → F → F
  | some x, some y => some (x * y)
  | _, _ => none

/-- Division `a / (q as f64)` for an `i64` value `q`: IEEE division of a finite value
by zero is `±∞` or `NaN` (non-finite), and a non-finite numerator over a
finite denominator stays non-finite. -/
def fDivI : F → ℤ → F
  | some x, q => if q = 0 then none else some (x / (q : ℚ))
  | none, _ => none

/-- The kind enumeration of the source: Buy or Sell. -/
inductive OperationKind where
  | Buy
  | Sell
deriving DecidableEq

/-- The string produced for a kind by the `Display`/`Debug` impls
(`kind.to_string()` in `add_operation`). -/
def OperationKind.render : OperationKind → String
  | .Buy => "Buy"
  | .Sell => "Sell"

/-- Rust `str::to_lowercase` as used here: per-character ASCII lowercasing.
(The strings this program compares are ASCII, where `to_lowercase` acts
exactly character by character.) -/
def lowerAscii (s : String) : String := String.mk (s.data.map Char.toLower)

/-- Parsing of a kind string, `OperationKind::from_str`: lowercases the input and accepts exactly
"buy" and "sell"; anything else is an error (modelled `none`). -/
def OperationKind.from_str (s : String) : Option OperationKind :=
  let lower := lowerAscii s
  if lower = "buy" then some OperationKind.Buy
  else if lower = "sell" then some OperationKind.Sell
  else none

/-- A stored BSON document as `calculate_position` reads it: each field the
code fetches with `get_*` is `Option`-valued, `none` meaning the field is
missing (or of the wrong BSON type), which makes the corresponding `get_*`
return an error that the code `unwrap`s.  `date` is always present on the
documents this program writes and the query filter only compares it, so it
is modelled as a plain integer timestamp. -/
structure StoredDoc where
  ticker : Option String
  kind : Option String
  quantity : Option ℤ
  price : Option ℚ
  date : ℤ
deriving DecidableEq

/-- The mutable fold state of `calculate_position`'s replay loop:
`total_quantity : i64` and `total_amount : f64`. -/
structure FoldState where
  total_quantity : ℤ
  total_amount : F
deriving DecidableEq

/-- The `struct Position` of the source. -/
structure Position where
  ticker : String
  value : F
  quantity : ℤ
  average_price : F
deriving DecidableEq

/-- The `OperationKind::Buy` arm of the replay loop:
`total_amount += price * quantity as f64; total_quantity += quantity`. -/
def buyStep (st : FoldState) (q : ℤ) (p : ℚ) : FoldState :=
  { total_quantity := st.total_quantity + q
    total_amount := fAdd st.total_amount (fMul (some p) (some (q : ℚ))) }

/-- The `OperationKind::Sell` arm of the replay loop:
`let price = total_amount / total_quantity as f64;
 total_amount -= price * quantity as f64; total_quantity -= quantity`.
There is no guard on `total_quantity == 0`. -/
def sellStep (st : FoldState) (q : ℤ) : FoldState :=
  let price := fDivI st.total_amount st.total_quantity
  { total_quantity := st.total_quantity - q
    total_amount := fSub st.total_amount (fMul price (some (q : ℚ))) }

/-- Processing of one document by the replay loop body.  Each `unwrap` of a
failed field access or of the `from_str` result is a panic, modelled as
`Except.error`.  The code reads `quantity`, then `kind`, parses the kind, and
reads `price` only in the `Buy` arm. -/
def processDoc (st : FoldState) (d : StoredDoc) : Except String FoldState :=
  match d.quantity with
  | none => Except.error "panic: get_i64 quantity unwrap"
  | some q =>
    match d.kind with
    | none => Except.error "panic: get_str kind unwrap"
    | some s =>
      match OperationKind.from_str s with
      | none => Except.error "panic: Unknown operation kind"
      | some OperationKind.Buy =>
        match d.price with
        | none => Except.error "panic: get_f64 price unwrap"
        | some p => Except.ok (buyStep st q p)
      | some OperationKind.Sell => Except.ok (sellStep st q)

/-- The replay loop from a given fold state: a panic aborts the whole loop. -/
def replayFrom (st : FoldState) : List StoredDoc → Except String FoldState
  | [] => Except.ok st
  | d :: ds =>
    match processDoc st d with
    | Except.error e => Except.error e
    | Except.ok st2 => replayFrom st2 ds

/-- The full replay, starting from `total_amount = 0f64, total_quantity = 0i64`. -/
def replayDocs (docs : List StoredDoc) : Except String FoldState :=
  replayFrom { total_quantity := 0, total_amount := some 0 } docs

/-- The final average computation:
`if total_quantity == 0 || total_amount == 0.0 { 0.0 } else { total_amount / total_quantity as f64 }`.
(`NaN == 0.0` is false, so a non-finite `total_amount` does not take the
zero branch unless `total_quantity == 0`.) -/
def averageOf (st : FoldState) : F :=
  if st.total_quantity = 0 ∨ st.total_amount = some 0 then some 0
  else fDivI st.total_amount st.total_quantity

/-- The `Position` built at the end of `calculate_position`. -/
def positionOfFold (ticker : String) (st : FoldState) : Position :=
  { ticker := ticker
    value := st.total_amount
    quantity := st.total_quantity
    average_price := averageOf st }

/-- The `Position` literal returned on a failed store query (lines 236–242). -/
def zeroPosition (ticker : String) : Position :=
  { ticker := ticker, value := some 0, quantity := 0, average_price := some 0 }

/-- The transaction store of database "stonks": an insertion-ordered append
log of (collection name, document) pairs.  `find` without a sort is modelled
as returning matching documents in this insertion (natural) order. -/
abbrev Store := List (String × StoredDoc)

/-- The write path `App::add_operation`: defaults the date to now, then inserts
`{ kind: kind.to_string(), quantity, price: price.to_f64(), date }` into the
collection **named after the ticker** — note that no `ticker` field is
written into the document. -/
def add_operation (store : Store) (kind : OperationKind) (ticker : String)
    (quantity : ℤ) (price : ℚ) (date : Option ℤ) (now : ℤ) : Store :=
  let actual_date := date.getD now
  store ++ [(ticker,
    { ticker := none
      kind := some kind.render
      quantity := some quantity
      price := some price
      date := actual_date })]

/-- The store query issued by `calculate_position`: documents of the
collection **"stocks"** whose `ticker` field equals the queried ticker and
whose `date` is at or before the cutoff, in natural (insertion) order —
the `find` call passes no sort option. -/
def queryDocs (store : Store) (ticker : String) (untilDate : ℤ) : List StoredDoc :=
  (store.filter (fun cd =>
    decide (cd.1 = "stocks" ∧ cd.2.ticker = some ticker ∧ cd.2.date ≤ untilDate))).map
    Prod.snd

/-- Behavior of `calculate_position` given the outcome of the store query: on a query
error the code prints the error and returns the all-zero `Position`; on
success it replays the returned documents (a panic inside the replay,
modelled `Except.error`, aborts the command). -/
def calculatePositionFromFind (ticker : String)
    (find : Except String (List StoredDoc)) : Except String Position :=
  match find with
  | Except.error _ => Except.ok (zeroPosition ticker)
  | Except.ok docs => (replayDocs docs).map (positionOfFold ticker)

/-- The read path `App::calculate_position` on a store whose query succeeds. -/
def calculate_position (store : Store) (ticker : String) (untilDate : ℤ) :
    Except String Position :=
  calculatePositionFromFind ticker (Except.ok (queryDocs store ticker untilDate))

/-- Whether one document survives the replay loop body without a panic:
`quantity` present, `kind` present and parseable, and `price` present when
the kind is Buy. -/
def docOk (d : StoredDoc) : Bool :=
  match d.quantity with
  | none => false
  | some _ =>
    match d.kind with
    | none => false
    | some s =>
      match OperationKind.from_str s with
      | none => false
      | some OperationKind.Buy => d.price.isSome
      | some OperationKind.Sell => true

/-- Stable insertion of a document into a date-sorted list (equal dates keep
the incumbent first). -/
def insertByDate (d : StoredDoc) : List StoredDoc → List StoredDoc
  | [] => [d]
  | e :: es => if d.date ≤ e.date then d :: e :: es else e :: insertByDate d es

/-- Insertion sort by timestamp ascending — the ordering §4.1 of the spec
prescribes for the replay. -/
def sortByDate : List StoredDoc → List StoredDoc
  | [] => []
  | d :: ds => insertByDate d (sortByDate ds)

/-- Decides whether a document list is already ordered by timestamp
ascending. -/
def sortedByDate : List StoredDoc → Bool
  | [] => true
  | [_] => true
  | a :: b :: r => decide (a.date ≤ b.date) && sortedByDate (b :: r)

/-- A well-formed Buy document (used to state the buy-only property). -/
def buyDoc (q : ℤ) (p : ℚ) : StoredDoc :=
  { ticker := some "X", kind := some "Buy", quantity := some q, price := some p, date := 0 }

/-- Concrete store refuting timestamp-ordered replay: the Sell dated 2 is
inserted after the Buy dated 3, so natural order and timestamp order differ. -/
def outOfOrderStore : Store :=
  [("stocks", { ticker := some "A", kind := some "Buy", quantity := some 1,
                price := some 100, date := 1 }),
   ("stocks", { ticker := some "A", kind := some "Buy", quantity := some 1,
                price := some 300, date := 3 }),
   ("stocks", { ticker := some "A", kind := some "Sell", quantity := some 1,
                price := some 0, date := 2 })]

end Stonks
namespace Stonks

/-- Replaying a well-formed Buy document is exactly `buyStep`. -/
lemma processDoc_buy (st : FoldState) (t : Option String) (q : ℤ) (p : ℚ) (da : ℤ) :
    processDoc st { ticker := t, kind := some "Buy", quantity := some q,
                    price := some p, date := da }
      = Except.ok (buyStep st q p) := rfl

/-- Replaying a well-formed Sell document is exactly `sellStep`; the price
field is not read in the Sell arm. -/
lemma processDoc_sell (st : FoldState) (t : Option String) (q : ℤ) (p : Option ℚ) (da : ℤ) :
    processDoc st { ticker := t, kind := some "Sell", quantity := some q,
                    price := p, date := da }
      = Except.ok (sellStep st q) := rfl

/-- For a nonzero quantity the final average is the plain quotient (also when
the cost is zero, since `0 / n = 0`). -/
lemma averageOf_some (n : ℤ) (a : ℚ) (hn : n ≠ 0) :
    averageOf { total_quantity := n, total_amount := some a } = some (a / (n : ℚ)) := by
  by_cases ha : a = 0
  · subst ha
    simp [averageOf, zero_div]
  · simp [averageOf, hn, ha, fDivI]

/-- Replaying a list of Buy documents accumulates the quantity sum and the
price-times-quantity sum. -/
lemma replayFrom_buys (l : List (ℤ × ℚ)) (Q : ℤ) (A : ℚ) :
    replayFrom { total_quantity := Q, total_amount := some A }
        (l.map fun qp => buyDoc qp.1 qp.2)
      = Except.ok { total_quantity := Q + (l.map Prod.fst).sum,
                    total_amount := some (A + (l.map fun qp => qp.2 * (qp.1 : ℚ)).sum) } := by
  induction l generalizing Q A with
  | nil => simp [replayFrom]
  | cons hd tl ih =>
    have hbuy : buyStep { total_quantity := Q, total_amount := some A } hd.1 hd.2
        = { total_quantity := Q + hd.1, total_amount := some (A + hd.2 * (hd.1 : ℚ)) } := by
      simp [buyStep, fAdd, fMul]
    have hpd : processDoc { total_quantity := Q, total_amount := some A } (buyDoc hd.1 hd.2)
        = Except.ok (buyStep { total_quantity := Q, total_amount := some A } hd.1 hd.2) := rfl
    simp only [List.map_cons, replayFrom, hpd]
    rw [hbuy, ih]
    simp only [List.map_cons, List.sum_cons]
    refine congrArg Except.ok ?_
    simp only [FoldState.mk.injEq, Option.some.injEq]
    constructor
    · ring
    · ring

/-- A date-sorted document list is a fixed point of the insertion sort. -/
lemma sortByDate_of_sorted : ∀ l : List StoredDoc, sortedByDate l = true → sortByDate l = l := by
  intro l
  induction l with
  | nil => intro _; rfl
  | cons a t ih =>
    intro h
    cases t with
    | nil => rfl
    | cons b r =>
      have hs : (decide (a.date ≤ b.date) && sortedByDate (b :: r)) = true := h
      rw [Bool.and_eq_true, decide_eq_true_eq] at hs
      show insertByDate a (sortByDate (b :: r)) = a :: b :: r
      rw [ih hs.2]
      simp [insertByDate, hs.1]

/-- A document that fails `docOk` makes the loop body panic from any state. -/
lemma processDoc_error_of_docOk_false (st : FoldState) (d : StoredDoc)
    (h : docOk d = false) : ∃ e, processDoc st d = Except.error e := by
  obtain ⟨t, k, qu, pr, da⟩ := d
  cases qu with
  | none => exact ⟨_, rfl⟩
  | some q =>
    cases k with
    | none => exact ⟨_, rfl⟩
    | some s =>
      cases hk : OperationKind.from_str s with
      | none =>
        refine ⟨"panic: Unknown operation kind", ?_⟩
        simp [processDoc, hk]
      | some kk =>
        cases kk with
        | Buy =>
          cases pr with
          | none =>
            refine ⟨"panic: get_f64 price unwrap", ?_⟩
            simp [processDoc, hk]
          | some p =>
            exfalso
            simp [docOk, hk] at h
        | Sell =>
          exfalso
          simp [docOk, hk] at h

/-- A panicking document anywhere in the list aborts the replay loop. -/
lemma replayFrom_abort (d : StoredDoc) (h : docOk d = false) (l1 l2 : List StoredDoc) :
    ∀ st : FoldState, ∃ e, replayFrom st (l1 ++ d :: l2) = Except.error e := by
  induction l1 with
  | nil =>
    intro st
    obtain ⟨e, he⟩ := processDoc_error_of_docOk_false st d h
    refine ⟨e, ?_⟩
    simp [replayFrom, he]
  | cons a t ih =>
    intro st
    cases hp : processDoc st a with
    | error e =>
      refine ⟨e, ?_⟩
      simp [List.cons_append, replayFrom, hp]
    | ok st2 =>
      obtain ⟨e, he⟩ := ih st2
      refine ⟨e, ?_⟩
      simp [List.cons_append, replayFrom, hp, he]

end Stonks
namespace Stonks

/-- Claim C1 (code bug evidence): a transaction appended by the buy command
for ticker "AAPL" with timestamp 1, at or before the cutoff 2, is **not**
retrieved by the subsequent position query — the write path inserts into the
collection named "AAPL" with no `ticker` field while the read path queries
the collection "stocks" by `ticker` field — so the replay folds nothing and
returns the zero position. -/
theorem appended_buy_never_retrieved :
    queryDocs (add_operation [] OperationKind.Buy "AAPL" 10 100 (some 1) 1) "AAPL" 2 = []
    ∧ calculate_position (add_operation [] OperationKind.Buy "AAPL" 10 100 (some 1) 1)
        "AAPL" 2 = Except.ok (zeroPosition "AAPL") :=
  ⟨rfl, rfl⟩

/-- Claim C2 (counterexample): when the store query fails, the caller
observes exactly the zero position (quantity 0, cost 0, average 0), contrary
to the claim that no Position is yielded. -/
theorem query_failure_zero_position_cex :
    calculatePositionFromFind "AAPL" (Except.error "connection refused")
      = Except.ok (zeroPosition "AAPL") := rfl

/-- Claim C2 (amended): on a failed store query the engine prints the error
and returns the zero Position; the result is indistinguishable from a
successful query over an empty ledger. -/
theorem failed_query_returns_zero_position (ticker e : String) (untilDate : ℤ) :
    calculatePositionFromFind ticker (Except.error e) = Except.ok (zeroPosition ticker)
    ∧ calculatePositionFromFind ticker (Except.error e)
      = calculate_position [] ticker untilDate :=
  ⟨rfl, rfl⟩

/-- Claim C3 (counterexample): a sell of 5 replayed against the zero-quantity
zero-cost state evaluates the division anyway: the cost becomes non-finite
(`none`, i.e. NaN) rather than being left unchanged. -/
theorem sell_at_zero_quantity_cex :
    sellStep { total_quantity := 0, total_amount := some 0 } 5
      = { total_quantity := -5, total_amount := none }
    ∧ (sellStep { total_quantity := 0, total_amount := some 0 } 5).total_amount
      ≠ ({ total_quantity := 0, total_amount := some 0 } : FoldState).total_amount := by
  decide

/-- Claim C3 (amended): for every sell replayed against a state whose
quantity is 0, the code does evaluate `total_amount / total_quantity`; the
non-finite quotient contaminates the cost, so the updated cost is non-finite
(not "unchanged"), while the quantity still decreases by the sold amount. -/
theorem sell_at_zero_quantity_divides (A : F) (q : ℤ) :
    sellStep { total_quantity := 0, total_amount := A } q
      = { total_quantity := 0 - q, total_amount := none } := by
  cases A <;> rfl

/-- Claim C4 (counterexample): on a store whose natural order is not
timestamp order (Sell dated 2 inserted after the Buy dated 3), the code's
replay (natural order) yields average 200 while the timestamp-sorted fold
yields average 300 — the returned Position is not the sorted fold. -/
theorem replay_order_cex :
    calculate_position outOfOrderStore "A" 10
      = Except.ok { ticker := "A", value := some 200, quantity := 1,
                    average_price := some 200 }
    ∧ (replayDocs (sortByDate (queryDocs outOfOrderStore "A" 10))).map (positionOfFold "A")
      = Except.ok { ticker := "A", value := some 300, quantity := 1,
                    average_price := some 300 } := by
  constructor
  · norm_num [calculate_position, calculatePositionFromFind, queryDocs, outOfOrderStore,
      replayDocs, replayFrom, processDoc_buy, processDoc_sell,
      buyStep, sellStep, fAdd, fMul, fSub, fDivI, positionOfFold, averageOf, Except.map]
  · norm_num [queryDocs, outOfOrderStore, sortByDate, insertByDate,
      replayDocs, replayFrom, processDoc_buy, processDoc_sell,
      buyStep, sellStep, fAdd, fMul, fSub, fDivI, positionOfFold, averageOf, Except.map]

/-- Claim C4 (amended): `calculate_position` folds the retrieved documents in
the order the store returns them, starting from the zero state; this equals
the timestamp-sorted fold exactly when the store already yields them in
timestamp-ascending order. -/
theorem replay_follows_store_order (store : Store) (ticker : String) (untilDate : ℤ)
    (h : sortedByDate (queryDocs store ticker untilDate) = true) :
    calculate_position store ticker untilDate
      = (replayDocs (sortByDate (queryDocs store ticker untilDate))).map
          (positionOfFold ticker) := by
  rw [sortByDate_of_sorted _ h]
  rfl

/-- Witness for the amended C4 theorem on a concrete sorted store. -/
theorem replay_follows_store_order_witness :
    sortedByDate (queryDocs [("stocks",
        { ticker := some "A", kind := some "Buy", quantity := some 1,
          price := some 100, date := 1 })] "A" 10) = true
    ∧ calculate_position [("stocks",
        { ticker := some "A", kind := some "Buy", quantity := some 1,
          price := some 100, date := 1 })] "A" 10
      = (replayDocs (sortByDate (queryDocs [("stocks",
          { ticker := some "A", kind := some "Buy", quantity := some 1,
            price := some 100, date := 1 })] "A" 10))).map (positionOfFold "A") :=
  ⟨by decide, replay_follows_store_order [("stocks",
      { ticker := some "A", kind := some "Buy", quantity := some 1,
        price := some 100, date := 1 })] "A" 10 (by decide)⟩

/-- Claim C5 (counterexample): selling exactly the held quantity (q = Q = 1,
allowed by "q ≤ Q") changes the average from 100 to the zero fallback, so a
sell with q ≤ Q does not always preserve the average. -/
theorem sell_all_average_cex :
    (0:ℤ) < 1 ∧ (1:ℤ) ≤ 1
    ∧ averageOf (sellStep { total_quantity := 1, total_amount := some 100 } 1)
      ≠ averageOf { total_quantity := 1, total_amount := some 100 } := by
  refine ⟨by decide, by decide, ?_⟩
  norm_num [averageOf, sellStep, fDivI, fMul, fSub]

/-- Claim C5 (amended): selling strictly less than the held quantity (q < Q,
Q > 0) at any price preserves the average of the remaining position, with
quantity and cost shrinking proportionally. -/
theorem sell_below_quantity_preserves_average (Q q : ℤ) (A : ℚ)
    (h1 : 0 < Q) (h2 : q < Q) :
    averageOf (sellStep { total_quantity := Q, total_amount := some A } q)
      = averageOf { total_quantity := Q, total_amount := some A }
    ∧ (sellStep { total_quantity := Q, total_amount := some A } q).total_quantity = Q - q
    ∧ (sellStep { total_quantity := Q, total_amount := some A } q).total_amount
      = some (A * ((Q : ℚ) - (q : ℚ)) / (Q : ℚ)) := by
  have hQ0 : Q ≠ 0 := by omega
  have hQq : (Q : ℚ) ≠ 0 := Int.cast_ne_zero.mpr hQ0
  have hQmq : Q - q ≠ 0 := by omega
  have hQne : (Q : ℚ) ≠ (q : ℚ) := by
    exact_mod_cast (by omega : Q ≠ q)
  have hQmqq : (Q : ℚ) - (q : ℚ) ≠ 0 := sub_ne_zero.mpr hQne
  have hstep : sellStep { total_quantity := Q, total_amount := some A } q
      = { total_quantity := Q - q,
          total_amount := some (A - A / (Q : ℚ) * (q : ℚ)) } := by
    simp [sellStep, fDivI, fMul, fSub, hQ0]
  have hamt : A - A / (Q : ℚ) * (q : ℚ) = A * ((Q : ℚ) - (q : ℚ)) / (Q : ℚ) := by
    field_simp
    ring
  refine ⟨?_, ?_, ?_⟩
  · rw [hstep, averageOf_some _ _ hQmq, averageOf_some _ _ hQ0]
    have hcast : ((Q - q : ℤ) : ℚ) = (Q : ℚ) - (q : ℚ) := by push_cast; ring
    rw [hcast, hamt]
    refine congrArg some ?_
    field_simp
    ring
  · rw [hstep]
  · rw [hstep]
    exact congrArg some hamt

/-- Witness for the amended C5 theorem: Buy 10@100 then Buy 10@200 gives
(Q, A) = (2, 300) scaled down; selling 1 of 2 leaves the average at 150. -/
theorem sell_below_quantity_preserves_average_witness :
    (0:ℤ) < 2 ∧ (1:ℤ) < 2
    ∧ (averageOf (sellStep { total_quantity := 2, total_amount := some 300 } 1)
        = averageOf { total_quantity := 2, total_amount := some 300 }
      ∧ (sellStep { total_quantity := 2, total_amount := some 300 } 1).total_quantity = 2 - 1
      ∧ (sellStep { total_quantity := 2, total_amount := some 300 } 1).total_amount
        = some (300 * (((2:ℤ) : ℚ) - ((1:ℤ) : ℚ)) / ((2:ℤ) : ℚ))) :=
  ⟨by decide, by decide,
    sell_below_quantity_preserves_average 2 1 300 (by decide) (by decide)⟩

/-- Claim C6: replaying any buy-only sequence yields average
Σ(pᵢ·qᵢ) / Σ(qᵢ) (with the 0/0 = 0 convention at the empty or cancelling
sums, matching the code's zero fallback). -/
theorem buy_only_average (l : List (ℤ × ℚ)) :
    (replayDocs (l.map fun qp => buyDoc qp.1 qp.2)).map averageOf
      = Except.ok (some ((l.map fun qp => qp.2 * (qp.1 : ℚ)).sum
          / (((l.map Prod.fst).sum : ℤ) : ℚ))) := by
  unfold replayDocs
  rw [replayFrom_buys]
  simp only [Except.map, zero_add]
  by_cases hn : (l.map Prod.fst).sum = 0
  · rw [hn]
    norm_num [averageOf]
  · rw [averageOf_some _ _ hn]

/-- Claim C7 (counterexample): the zero state is reachable (empty replay),
and there a sell of exactly the current quantity (0) drives the cost to NaN
(`none`), not to 0. -/
theorem full_liquidation_zero_state_cex :
    replayDocs [] = Except.ok { total_quantity := 0, total_amount := some 0 }
    ∧ sellStep { total_quantity := 0, total_amount := some 0 } 0
        = { total_quantity := 0, total_amount := none } :=
  ⟨rfl, by decide⟩

/-- Claim C7 (amended): from any state with nonzero quantity and finite cost,
selling exactly the current quantity yields quantity 0, cost 0 and average 0. -/
theorem full_liquidation_finite (Q : ℤ) (A : ℚ) (h : Q ≠ 0) :
    sellStep { total_quantity := Q, total_amount := some A } Q
      = { total_quantity := 0, total_amount := some 0 }
    ∧ averageOf (sellStep { total_quantity := Q, total_amount := some A } Q) = some 0 := by
  have hQq : (Q : ℚ) ≠ 0 := Int.cast_ne_zero.mpr h
  have hmc : A / (Q : ℚ) * (Q : ℚ) = A := div_mul_cancel₀ A hQq
  have hstep : sellStep { total_quantity := Q, total_amount := some A } Q
      = { total_quantity := 0, total_amount := some 0 } := by
    simp [sellStep, fDivI, fMul, fSub, h, hmc]
  refine ⟨hstep, ?_⟩
  rw [hstep]
  simp [averageOf]

/-- Witness for the amended C7 theorem at Q = 2, A = 300. -/
theorem full_liquidation_finite_witness :
    (2:ℤ) ≠ 0
    ∧ (sellStep { total_quantity := 2, total_amount := some 300 } 2
        = { total_quantity := 0, total_amount := some 0 }
      ∧ averageOf (sellStep { total_quantity := 2, total_amount := some 300 } 2) = some 0) :=
  ⟨by decide, full_liquidation_finite 2 300 (by decide)⟩

/-- Claim C8: a document dated strictly after the cutoff never influences the
computed position — inserting it anywhere in the store leaves the result of
`calculate_position` unchanged. -/
theorem cutoff_filtering (s1 s2 : Store) (c : String) (d : StoredDoc)
    (ticker : String) (untilDate : ℤ) (h : untilDate < d.date) :
    calculate_position (s1 ++ (c, d) :: s2) ticker untilDate
      = calculate_position (s1 ++ s2) ticker untilDate := by
  have hd : (decide ((c, d).1 = "stocks" ∧ (c, d).2.ticker = some ticker
      ∧ (c, d).2.date ≤ untilDate)) = false := by
    simp only [decide_eq_false_iff_not]
    rintro ⟨-, -, hle⟩
    omega
  have hq : queryDocs (s1 ++ (c, d) :: s2) ticker untilDate
      = queryDocs (s1 ++ s2) ticker untilDate := by
    unfold queryDocs
    rw [List.filter_append, List.filter_append, List.filter_cons]
    rw [hd]
    simp
  unfold calculate_position
  rw [hq]

/-- Witness for C8: a Buy dated 5 is invisible to a query with cutoff 3. -/
theorem cutoff_filtering_witness :
    (3:ℤ) < 5
    ∧ calculate_position [("stocks",
        { ticker := some "A", kind := some "Buy", quantity := some 1,
          price := some 100, date := 5 })] "A" 3
      = calculate_position [] "A" 3 :=
  ⟨by decide, cutoff_filtering [] [] "stocks"
    { ticker := some "A", kind := some "Buy", quantity := some 1,
      price := some 100, date := 5 } "A" 3 (by decide)⟩

/-- Claim C9: a stored document missing `quantity` or `kind`, missing `price`
on a Buy, or with an unrecognized kind string, panics the loop body and
aborts the whole replay, wherever it sits in the retrieved list. -/
theorem anomalous_doc_aborts_replay (d : StoredDoc) (h : docOk d = false)
    (l1 l2 : List StoredDoc) :
    ∃ e, replayDocs (l1 ++ d :: l2) = Except.error e :=
  replayFrom_abort d h l1 l2 { total_quantity := 0, total_amount := some 0 }

/-- Witness for C9: a document whose kind is "Hold" aborts the replay. -/
theorem anomalous_doc_aborts_replay_witness :
    docOk { ticker := some "A", kind := some "Hold", quantity := some 1,
            price := some 0, date := 0 } = false
    ∧ ∃ e, replayDocs ([] ++ { ticker := some "A", kind := some "Hold",
                               quantity := some 1, price := some 0, date := 0 } :: [])
        = Except.error e :=
  ⟨by decide, anomalous_doc_aborts_replay
    { ticker := some "A", kind := some "Hold", quantity := some 1,
      price := some 0, date := 0 } (by decide) [] []⟩

/-- Claim C10 (counterexample): an invocation with quantity 0 (which is ≤ 0)
is not rejected — the transaction is appended with quantity 0 stored. -/
theorem zero_quantity_appended_cex :
    (0:ℤ) ≤ 0
    ∧ add_operation [] OperationKind.Buy "AAPL" 0 100 (some 1) 1
      = [("AAPL", { ticker := none, kind := some "Buy", quantity := some 0,
                    price := some 100, date := 1 })]
    ∧ add_operation [] OperationKind.Buy "AAPL" 0 100 (some 1) 1 ≠ [] := by
  refine ⟨by decide, rfl, by decide⟩

/-- Claim C10 (amended): `add_operation` performs no quantity validation: for
every quantity, including any quantity ≤ 0, it appends exactly one document
carrying that quantity. -/
theorem add_operation_appends_any_quantity (store : Store) (kind : OperationKind)
    (ticker : String) (quantity : ℤ) (price : ℚ) (date : Option ℤ) (now : ℤ)
    (_h : quantity ≤ 0) :
    add_operation store kind ticker quantity price date now
      = store ++ [(ticker, { ticker := none, kind := some kind.render,
                             quantity := some quantity, price := some price,
                             date := date.getD now })] :=
  rfl

/-- Witness for the amended C10 theorem at quantity 0. -/
theorem add_operation_appends_any_quantity_witness :
    (0:ℤ) ≤ 0
    ∧ add_operation [] OperationKind.Sell "BBAS3" 0 50 none 7
      = [] ++ [("BBAS3", { ticker := none, kind := some OperationKind.Sell.render,
                           quantity := some 0, price := some 50,
                           date := (none : Option ℤ).getD 7 })] :=
  ⟨by decide, add_operation_appends_any_quantity [] OperationKind.Sell "BBAS3" 0 50
    none 7 (by decide)⟩

end Stonks
